import Mathlib

/-!
Verification of the command-queue engine of `commandment` (`src/commandment/models.py`)
against its natural-language specification.  The data model and the operations are
shallowly embedded: SQLAlchemy rows become Lean structures, the table becomes a
`List` of rows, queries become list functions, and datetimes become `Nat` instants.
-/

set_option linter.unusedVariables false

namespace Commandment

/-- The command lifecycle statuses (`CommandStatus` from `.mdm`, stored as the
single-character `status` column of the `commands` table, models.py line 383). -/
inductive CommandStatus where
  | Queued
  | Sent
  | Acknowledged
  | Error
  | NotNow
  | Expired
deriving DecidableEq

/-- One row of the `commands` table (class `Command`, models.py lines 352-397).
`DateTime` columns are instants (`Nat`), nullable columns are `Option`,
the GUID `uuid` is abstracted to a `Nat` identifier, and the JSON `parameters`
column to an opaque `Option String`. -/
structure Command where
  id : Nat
  request_type : String
  uuid : Nat
  parameters : Option String
  status : CommandStatus
  queued_at : Nat
  sent_at : Option Nat
  acknowledged_at : Option Nat
  after : Option Nat
  ttl : Int
  device_id : Option Nat
deriving DecidableEq

/-- The predicate the claims use for "a Queued command belonging to this device":
exactly the filter of `get_next_device_command`
(`and_(cls.device == device, cls.status == CommandStatus.Queued.value)`). -/
abbrev isQueuedFor (c : Command) (device : Nat) : Prop :=
  c.device_id = some device ∧ c.status = CommandStatus.Queued

/-- `after`-eligibility as the spec words it: `after` is null or in the past.
Used only in claim hypotheses; `get_next_device_command` itself never consults
`after` (see `C3_after_ignored`). -/
def isEligibleAt (c : Command) (now : Nat) : Prop :=
  c.after = none ∨ ∃ t, c.after = some t ∧ t ≤ now

/-- The rows of the store passing the filter of `get_next_device_command`. -/
def queuedCommandsFor (store : List Command) (device : Nat) : List Command :=
  store.filter (fun c => decide (isQueuedFor c device))

/-- `.order_by(cls.id).first()`: the first row in ascending-`id` order (for a
tie on `id` — impossible for a primary key — the earlier row, as a stable sort
would give). -/
def firstByIdAsc : List Command → Option Command
  | [] => none
  | c :: cs =>
    match firstByIdAsc cs with
    | none => some c
    | some d => if c.id ≤ d.id then some c else some d

/-- `Command.get_next_device_command` (models.py lines 421-426):
`cls.query.filter(and_(cls.device == device, cls.status ==
CommandStatus.Queued.value)).order_by(cls.id).first()`. -/
def get_next_device_command (store : List Command) (device : Nat) : Option Command :=
  firstByIdAsc (queuedCommandsFor store device)

/-- Sample row builder used for the concrete instances below (only `id`, `uuid`,
`status`, `after` and `device_id` vary; remaining columns take plain values). -/
def sampleCommand (idv uuidv : Nat) (st : CommandStatus) (afterv : Option Nat)
    (dev : Option Nat) : Command :=
  { id := idv
    request_type := "DeviceInformation"
    uuid := uuidv
    parameters := none
    status := st
    queued_at := 0
    sent_at := none
    acknowledged_at := none
    after := afterv
    ttl := 5
    device_id := dev }

/-- The lifecycle events of §4.1 of the spec: dispatch to the device, the three
reply outcomes, and the no-reply timeout. -/
inductive LifecycleEvent where
  | dispatch
  | replyAcknowledged
  | replyError
  | replyNotNow
  | timeout
deriving DecidableEq

/-- The (status, ttl) pair the lifecycle state machine acts on.  `ttl` is the
`Integer` column of models.py line 393. -/
structure LifecycleState where
  status : CommandStatus
  ttl : Int
deriving DecidableEq

/-- Modelled from the spec: the Command Lifecycle State Machine of §4.1 is not
part of models.py (the file holds only the `status` and `ttl` columns; the
transition code lives outside the staged source).  The transition table,
verbatim from the spec, with the `NotNow`/timeout ttl decrement and the
`Expired` check computed in the same step: Queued --dispatch--> Sent (or
Expired when ttl is already exhausted); Sent --Acknowledged/Error--> terminal;
Sent --NotNow/timeout--> decrement ttl, Expired if it reaches zero, else back
to Queued.  `none` = no transition for that (state, event) pair. -/
def lifecycleStep : LifecycleState → LifecycleEvent → Option LifecycleState
  | ⟨CommandStatus.Queued, t⟩, LifecycleEvent.dispatch =>
      if t ≤ 0 then some ⟨CommandStatus.Expired, t⟩ else some ⟨CommandStatus.Sent, t⟩
  | ⟨CommandStatus.Sent, t⟩, LifecycleEvent.replyAcknowledged =>
      some ⟨CommandStatus.Acknowledged, t⟩
  | ⟨CommandStatus.Sent, t⟩, LifecycleEvent.replyError =>
      some ⟨CommandStatus.Error, t⟩
  | ⟨CommandStatus.Sent, t⟩, LifecycleEvent.replyNotNow =>
      if t - 1 ≤ 0 then some ⟨CommandStatus.Expired, t - 1⟩
      else some ⟨CommandStatus.Queued, t - 1⟩
  | ⟨CommandStatus.Sent, t⟩, LifecycleEvent.timeout =>
      if t - 1 ≤ 0 then some ⟨CommandStatus.Expired, t - 1⟩
      else some ⟨CommandStatus.Queued, t - 1⟩
  | _, _ => none

/-- States reachable from `init` through the lifecycle transitions. -/
inductive ReachableFrom (init : LifecycleState) : LifecycleState → Prop where
  | refl : ReachableFrom init init
  | step {s s' : LifecycleState} {e : LifecycleEvent} :
      ReachableFrom init s → lifecycleStep s e = some s' → ReachableFrom init s'

/-- One row of the `devices` table (class `Device`, models.py lines 166-282),
restricted to the columns the queue/push engine reads: `is_enrolled`,
the base64-stored APNS token `_token` (the push address), `push_magic`,
`last_push_at`, `last_apns_id`, `failed_push_count`, `last_seen`. -/
structure Device where
  id : Nat
  udid : Option String
  is_enrolled : Bool
  push_magic : Option String
  _token : Option (List Char)
  last_push_at : Option Nat
  last_apns_id : Option Nat
  failed_push_count : Nat
  last_seen : Option Nat
deriving DecidableEq

/-- Modelled from the spec: the Push Throttler's `notifyIfNeeded` (§4.3) is not
part of models.py — the file holds only `last_push_at` with the comment "if
null there are no outstanding push notifications.  If this contains anything
then dont attempt to deliver another APNS push" (lines 242-245).  Faithful to
§4.3: no-op when the device is not enrolled, has no push address (device
token), or `last_push_at` is set; otherwise send the wake signal and record
`last_push_at = now` and a fresh push id.  The returned Bool reports whether a
signal was sent. -/
def notifyIfNeeded (d : Device) (now pushId : Nat) : Device × Bool :=
  if d.is_enrolled = false then (d, false)
  else if d._token = none then (d, false)
  else if d.last_push_at ≠ none then (d, false)
  else ({ d with last_push_at := some now, last_apns_id := some pushId }, true)

/-- The engine's shared state: one device of the registry together with the
command rows of the store. -/
structure EngineState where
  device : Device
  commands : List Command
deriving DecidableEq

/-- Modelled from the spec: the push-failure bookkeeping of §4.3 is not part of
models.py (the file holds only the `failed_push_count` column, lines 244-249).
On confirmed delivery failure the transport callback increments
`failed_push_count`; the command store is untouched. -/
def onPushDeliveryFailure (s : EngineState) : EngineState :=
  { s with device :=
      { s.device with failed_push_count := s.device.failed_push_count + 1 } }

/-- Modelled from the spec: §4.3 — on confirmed delivery success, clear
`last_push_at`/`last_apns_id` and reset `failed_push_count` to zero; the
command store is untouched. -/
def onPushDeliverySuccess (s : EngineState) : EngineState :=
  { s with device :=
      { s.device with last_push_at := none, last_apns_id := none,
                      failed_push_count := 0 } }

/-- Modelled from the spec: §4.3 — a device contact implicitly proves
reachability, so it clears the push state exactly as a confirmed success does,
and records the contact in `last_seen` (models.py line 196); the command store
is untouched. -/
def onDeviceContact (s : EngineState) (now : Nat) : EngineState :=
  { s with device :=
      { s.device with last_push_at := none, last_apns_id := none,
                      failed_push_count := 0, last_seen := some now } }

/-- The errors `sqlalchemy.orm.Query.one()` raises: no row, or more than one. -/
inductive QueryError where
  | NoResultFound
  | MultipleResultsFound
deriving DecidableEq

/-- `Command.find_by_uuid` (models.py lines 409-419):
`cls.query.filter(cls.uuid == uuid).one()`.  The filter is on `uuid` alone —
the whole table, every device, every status — and `.one()` returns the row
when exactly one matches and raises otherwise. -/
def find_by_uuid (store : List Command) (uuidv : Nat) : Except QueryError Command :=
  match store.filter (fun c => decide (c.uuid = uuidv)) with
  | [] => Except.error QueryError.NoResultFound
  | [c] => Except.ok c
  | _ :: _ :: _ => Except.error QueryError.MultipleResultsFound

/-- A freshly persisted `commands` row with the column defaults of models.py
lines 383-395 applied: `status` defaults to `CommandStatus.Queued`, `ttl` to 5,
and `queued_at` to `datetime.datetime.utcnow()` — which Python evaluates ONCE,
when the class body is executed at module load, so every row gets the module
load instant, not its own creation instant.  `creationTime` is therefore taken
and ignored, exactly as the code ignores the actual insert time. -/
def newCommandRow (moduleLoadTime creationTime idv : Nat) (rt : String)
    (uuidv : Nat) (params : Option String) (dev : Option Nat) : Command :=
  { id := idv
    request_type := rt
    uuid := uuidv
    parameters := params
    status := CommandStatus.Queued
    queued_at := moduleLoadTime
    sent_at := none
    acknowledged_at := none
    after := none
    ttl := 5
    device_id := dev }

/-- The protocol-layer command object (`commands.Command` from `.mdm`) that
`Command.from_model` copies from: only `request_type`, `uuid` and `parameters`
are read from it (models.py lines 400-407). -/
structure ProtocolCommand where
  request_type : String
  uuid : Nat
  parameters : Option String
deriving DecidableEq

/-- `Command.from_model` (models.py lines 400-407): builds a fresh row and
copies exactly `request_type`, `uuid` and `parameters` from the input; every
other column keeps its default (applied at persist time, `newCommandRow`). -/
def from_model (moduleLoadTime creationTime idv : Nat) (cmd : ProtocolCommand) :
    Command :=
  newCommandRow moduleLoadTime creationTime idv cmd.request_type cmd.uuid
    cmd.parameters none

/-- Sample device row for the concrete instances below: enrolled, with a
stored push token, and `last_push_at` as given. -/
def sampleDevice (lastPush : Option Nat) : Device :=
  { id := 1
    udid := none
    is_enrolled := true
    push_magic := none
    _token := some ['Y', 'Q', '=', '=']
    last_push_at := lastPush
    last_apns_id := none
    failed_push_count := 0
    last_seen := none }

/-- The base64 alphabet of RFC 4648, the one `base64.b64encode` uses. -/
def b64Alphabet : List Char :=
  ['A', 'B', 'C', 'D', 'E', 'F', 'G', 'H', 'I', 'J', 'K', 'L', 'M',
   'N', 'O', 'P', 'Q', 'R', 'S', 'T', 'U', 'V', 'W', 'X', 'Y', 'Z',
   'a', 'b', 'c', 'd', 'e', 'f', 'g', 'h', 'i', 'j', 'k', 'l', 'm',
   'n', 'o', 'p', 'q', 'r', 's', 't', 'u', 'v', 'w', 'x', 'y', 'z',
   '0', '1', '2', '3', '4', '5', '6', '7', '8', '9', '+', '/']

/-- The character for a 6-bit group; the out-of-range index 64 stands for the
padding character. -/
def sextetToChar (n : Nat) : Char := b64Alphabet.getD n '='

/-- The 6-bit group a character denotes; the padding character (not being in
the alphabet) maps to 64. -/
def charToSextet (c : Char) : Nat := b64Alphabet.indexOf c

/-- One full 3-byte group into its four 6-bit groups. -/
def encode3 (a b c : Nat) : List Nat :=
  [a / 4, (a % 4) * 16 + b / 16, (b % 16) * 4 + c / 64, c % 64]

/-- `base64.b64encode` at the 6-bit-group level (64 = the padding character):
groups of three bytes, a final group of one or two bytes padded out. -/
def b64encodeGroups : List Nat → List Nat
  | [] => []
  | [a] => [a / 4, (a % 4) * 16, 64, 64]
  | [a, b] => [a / 4, (a % 4) * 16 + b / 16, (b % 16) * 4, 64]
  | a :: b :: c :: rest => encode3 a b c ++ b64encodeGroups rest

/-- One 4-group unit back into its one, two or three bytes, driven by the
padding groups. -/
def decode4 (w x y z : Nat) : List Nat :=
  if z = 64 then
    if y = 64 then [w * 4 + x / 16]
    else [w * 4 + x / 16, (x % 16) * 16 + y / 4]
  else [w * 4 + x / 16, (x % 16) * 16 + y / 4, (y % 4) * 64 + z]

/-- `base64.b64decode` at the 6-bit-group level. -/
def b64decodeGroups : List Nat → List Nat
  | w :: x :: y :: z :: rest => decode4 w x y z ++ b64decodeGroups rest
  | _ => []

/-- `base64.b64encode`: a byte list to the stored base64 string. -/
def b64encode (l : List Nat) : List Char := (b64encodeGroups l).map sextetToChar

/-- `base64.b64decode`: the stored base64 string back to a byte list. -/
def b64decode (s : List Char) : List Nat := b64decodeGroups (s.map charToSextet)

/-- The `token` hybrid-property getter (models.py lines 226-228):
`self._token if self._token is None else base64.b64decode(self._token)`. -/
def Device.token (d : Device) : Option (List Nat) :=
  match d._token with
  | none => none
  | some s => some (b64decode s)

/-- The `token` setter (models.py lines 230-232):
`self._token = base64.b64encode(value) if value is not None else None`. -/
def Device.setToken (d : Device) (value : Option (List Nat)) : Device :=
  { d with _token :=
      match value with
      | some bytes => some (b64encode bytes)
      | none => none }

theorem firstByIdAsc_eq_none_iff (l : List Command) :
    firstByIdAsc l = none ↔ l = [] := by
  cases l with
  | nil => simp [firstByIdAsc]
  | cons c cs =>
    simp only [firstByIdAsc]
    cases h : firstByIdAsc cs with
    | none => simp
    | some d =>
      constructor
      · intro hc
        by_cases hle : c.id ≤ d.id <;> simp [hle] at hc
      · intro hc
        exact absurd hc (by simp)

theorem firstByIdAsc_mem (l : List Command) (c : Command)
    (h : firstByIdAsc l = some c) : c ∈ l := by
  induction l generalizing c with
  | nil => simp [firstByIdAsc] at h
  | cons x xs ih =>
    simp only [firstByIdAsc] at h
    cases hx : firstByIdAsc xs with
    | none =>
      rw [hx] at h
      simp at h
      simp [h]
    | some d =>
      rw [hx] at h
      by_cases hle : x.id ≤ d.id
      · simp [hle] at h
        simp [h]
      · simp [hle] at h
        exact List.mem_cons_of_mem x (h ▸ ih d hx)

theorem firstByIdAsc_min (l : List Command) (c : Command)
    (h : firstByIdAsc l = some c) : ∀ x ∈ l, c.id ≤ x.id := by
  induction l generalizing c with
  | nil => simp [firstByIdAsc] at h
  | cons y ys ih =>
    simp only [firstByIdAsc] at h
    cases hy : firstByIdAsc ys with
    | none =>
      rw [hy] at h
      simp at h
      intro x hx
      rcases List.mem_cons.mp hx with hxy | hxs
      · simp [h, hxy]
      · exact absurd hy ((not_iff_not.mpr (firstByIdAsc_eq_none_iff ys)).mpr
          (List.ne_nil_of_mem hxs) ∘ id)
    | some d =>
      rw [hy] at h
      by_cases hle : y.id ≤ d.id
      · simp [hle] at h
        intro x hx
        rcases List.mem_cons.mp hx with hxy | hxs
        · simp [h, hxy]
        · exact h ▸ le_trans hle (ih d hy x hxs)
      · simp [hle] at h
        intro x hx
        rcases List.mem_cons.mp hx with hxy | hxs
        · exact h ▸ hxy ▸ le_of_lt (lt_of_not_le hle)
        · exact h ▸ ih d hy x hxs

theorem mem_queuedCommandsFor (store : List Command) (device : Nat) (c : Command) :
    c ∈ queuedCommandsFor store device ↔ c ∈ store ∧ isQueuedFor c device := by
  simp [queuedCommandsFor, List.mem_filter]

/-- C1 (counterexample): as stated the claim is false.  With a `Sent` command
(id 1) and a `Queued` command (id 2) both belonging to device 1,
`get_next_device_command` returns the `Queued` command rather than `none`:
the query filters only on `device` and `status == Queued` and never consults
`Sent` commands. -/
theorem C1_sent_not_blocking_counterexample :
    (∃ c ∈ [sampleCommand 1 11 CommandStatus.Sent none (some 1),
            sampleCommand 2 12 CommandStatus.Queued none (some 1)],
        c.device_id = some 1 ∧ c.status = CommandStatus.Sent) ∧
    get_next_device_command
        [sampleCommand 1 11 CommandStatus.Sent none (some 1),
         sampleCommand 2 12 CommandStatus.Queued none (some 1)] 1
      = some (sampleCommand 2 12 CommandStatus.Queued none (some 1)) := by
  constructor
  · exact ⟨sampleCommand 1 11 CommandStatus.Sent none (some 1), by decide⟩
  · decide

/-- C1 (amended): `get_next_device_command` ignores `Sent` commands entirely.
It returns `none` exactly when the device has no `Queued` command at all — the
presence of an outstanding `Sent` command does not make it return `none`. -/
theorem C1_next_none_iff_no_queued (store : List Command) (device : Nat) :
    get_next_device_command store device = none ↔
      ∀ c ∈ store, ¬ isQueuedFor c device := by
  unfold get_next_device_command
  rw [firstByIdAsc_eq_none_iff]
  constructor
  · intro h c hc hq
    have hmem : c ∈ queuedCommandsFor store device :=
      (mem_queuedCommandsFor store device c).mpr ⟨hc, hq⟩
    rw [h] at hmem
    exact absurd hmem (List.not_mem_nil c)
  · intro h
    apply List.eq_nil_iff_forall_not_mem.mpr
    intro c hmem
    have := (mem_queuedCommandsFor store device c).mp hmem
    exact h c this.1 this.2

/-- C1 (amended, witness): on an empty store the selector returns `none`. -/
theorem C1_next_none_iff_no_queued_witness :
    get_next_device_command [] 1 = none :=
  (C1_next_none_iff_no_queued [] 1).mpr (by simp)

/-- C2: whenever the device has at least one eligible `Queued` command,
`get_next_device_command` returns a `Queued` command of that device whose `id`
is minimal among its `Queued` commands (first enqueued, first delivered);
whenever the device has no `Queued` command it returns `none`; and commands
enqueued in order A, B, C (ids 1 < 2 < 3, no `after`) are delivered in exactly
that order, one per contact, as each is moved out of `Queued` by its reply. -/
theorem C2_fifo_selection (store : List Command) (device now : Nat) :
    ((∃ c ∈ store, isQueuedFor c device ∧ isEligibleAt c now) →
      ∃ r, get_next_device_command store device = some r ∧ r ∈ store ∧
        isQueuedFor r device ∧
        ∀ c ∈ store, isQueuedFor c device → r.id ≤ c.id)
    ∧ ((∀ c ∈ store, ¬ isQueuedFor c device) →
        get_next_device_command store device = none)
    ∧ (get_next_device_command
          [sampleCommand 1 11 CommandStatus.Queued none (some 1),
           sampleCommand 2 12 CommandStatus.Queued none (some 1),
           sampleCommand 3 13 CommandStatus.Queued none (some 1)] 1
        = some (sampleCommand 1 11 CommandStatus.Queued none (some 1))
      ∧ get_next_device_command
          [sampleCommand 1 11 CommandStatus.Acknowledged none (some 1),
           sampleCommand 2 12 CommandStatus.Queued none (some 1),
           sampleCommand 3 13 CommandStatus.Queued none (some 1)] 1
        = some (sampleCommand 2 12 CommandStatus.Queued none (some 1))
      ∧ get_next_device_command
          [sampleCommand 1 11 CommandStatus.Acknowledged none (some 1),
           sampleCommand 2 12 CommandStatus.Acknowledged none (some 1),
           sampleCommand 3 13 CommandStatus.Queued none (some 1)] 1
        = some (sampleCommand 3 13 CommandStatus.Queued none (some 1))
      ∧ get_next_device_command
          [sampleCommand 1 11 CommandStatus.Acknowledged none (some 1),
           sampleCommand 2 12 CommandStatus.Acknowledged none (some 1),
           sampleCommand 3 13 CommandStatus.Acknowledged none (some 1)] 1
        = none) := by
  refine ⟨?_, ?_, by decide, by decide, by decide, by decide⟩
  · rintro ⟨c, hc, hq, -⟩
    have hmem : c ∈ queuedCommandsFor store device :=
      (mem_queuedCommandsFor store device c).mpr ⟨hc, hq⟩
    have hne : queuedCommandsFor store device ≠ [] := List.ne_nil_of_mem hmem
    cases hr : firstByIdAsc (queuedCommandsFor store device) with
    | none => exact absurd ((firstByIdAsc_eq_none_iff _).mp hr) hne
    | some r =>
      have hrmem := (mem_queuedCommandsFor store device r).mp
        (firstByIdAsc_mem _ r hr)
      refine ⟨r, hr, hrmem.1, hrmem.2, ?_⟩
      intro c' hc' hq'
      exact firstByIdAsc_min _ r hr c'
        ((mem_queuedCommandsFor store device c').mpr ⟨hc', hq'⟩)
  · intro h
    exact (C1_next_none_iff_no_queued store device).mpr h

/-- C3 (code behavior at the failing input): `get_next_device_command` takes no
notion of the current time and applies no `after` filter.  A lone `Queued`
command with `after = 100`, evaluated at `now = 0` (so not yet eligible), is
returned anyway, although models.py line 369 documents `after` as "the command
must not be sent until this datetime is in the past". -/
theorem C3_after_ignored :
    ((sampleCommand 1 11 CommandStatus.Queued (some 100) (some 1)).after = some 100
      ∧ ¬ isEligibleAt (sampleCommand 1 11 CommandStatus.Queued (some 100) (some 1)) 0)
    ∧ get_next_device_command
        [sampleCommand 1 11 CommandStatus.Queued (some 100) (some 1)] 1
      = some (sampleCommand 1 11 CommandStatus.Queued (some 100) (some 1)) := by
  refine ⟨⟨rfl, ?_⟩, by decide⟩
  rintro (h | ⟨t, ht, hle⟩)
  · exact absurd h (by simp [sampleCommand])
  · have : t = 100 := by
      have : (sampleCommand 1 11 CommandStatus.Queued (some 100) (some 1)).after
          = some 100 := rfl
      rw [this] at ht
      exact (Option.some_injective Nat ht.symm)
    omega

theorem lifecycleStep_preserves_queued_pos (s s' : LifecycleState)
    (e : LifecycleEvent) (h : lifecycleStep s e = some s')
    (hs : s.status = CommandStatus.Queued → 0 < s.ttl) :
    s'.status = CommandStatus.Queued → 0 < s'.ttl := by
  obtain ⟨st, t⟩ := s
  obtain ⟨st', t'⟩ := s'
  intro hq'
  simp only at hq'
  subst hq'
  cases st <;> cases e <;> simp only [lifecycleStep] at h <;>
    (try split at h) <;> (try cases h) <;> simp_all

/-- C4: along any sequence of lifecycle events from a freshly created command
(`Queued` with positive ttl), the `NotNow`/timeout decrement and the `Expired`
transition are one atomic step of `lifecycleStep`, so no reachable state has
status `Queued` with ttl ≤ 0: every reachable `Queued` state has positive ttl. -/
theorem C4_no_zero_ttl_queued (t0 : Int) (s : LifecycleState) (h0 : 0 < t0)
    (hr : ReachableFrom ⟨CommandStatus.Queued, t0⟩ s) :
    s.status = CommandStatus.Queued → 0 < s.ttl := by
  induction hr with
  | refl => exact fun _ => h0
  | step hprev hstep ih => exact lifecycleStep_preserves_queued_pos _ _ _ hstep ih

/-- C4 (witness): starting from `Queued` with the default ttl 5, dispatch
followed by a `NotNow` reply reaches `Queued` with ttl 4 > 0. -/
theorem C4_no_zero_ttl_queued_witness :
    0 < (LifecycleState.mk CommandStatus.Queued 4).ttl :=
  C4_no_zero_ttl_queued 5 ⟨CommandStatus.Queued, 4⟩ (by norm_num)
    (ReachableFrom.step
      (ReachableFrom.step ReachableFrom.refl
        (show lifecycleStep ⟨CommandStatus.Queued, 5⟩ LifecycleEvent.dispatch
            = some ⟨CommandStatus.Sent, 5⟩ by decide))
      (show lifecycleStep ⟨CommandStatus.Sent, 5⟩ LifecycleEvent.replyNotNow
          = some ⟨CommandStatus.Queued, 4⟩ by decide))
    rfl

/-- C5: `notifyIfNeeded` is a no-op (same device state, no signal) whenever the
device is not enrolled, has no push address, or has `last_push_at` set; and two
successive calls send at most one wake signal — if the first sends, the second
cannot, because the first records `last_push_at`. -/
theorem C5_push_throttle (d : Device) (now1 id1 now2 id2 : Nat) :
    ((d.is_enrolled = false ∨ d._token = none ∨ d.last_push_at ≠ none) →
      notifyIfNeeded d now1 id1 = (d, false))
    ∧ ¬((notifyIfNeeded d now1 id1).2 = true ∧
        (notifyIfNeeded (notifyIfNeeded d now1 id1).1 now2 id2).2 = true) := by
  constructor
  · rintro (h | h | h) <;> simp [notifyIfNeeded, h]
  · rintro ⟨h1, h2⟩
    by_cases he : d.is_enrolled = false
    · simp [notifyIfNeeded, he] at h1
    by_cases ht : d._token = none
    · simp [notifyIfNeeded, he, ht] at h1
    by_cases hp : d.last_push_at = none
    · simp [notifyIfNeeded, he, ht, hp] at h2
    · simp [notifyIfNeeded, he, ht, hp] at h1

/-- C6 (counterexample): the lookup of `find_by_uuid` is not scoped to the
contacting device.  The only stored command with uuid 77 is a `Sent` command of
device 2, so by the claim a reply from device 1 carrying uuid 77 should fail
with `NotFound`; the code's lookup succeeds and returns device 2's command. -/
theorem C6_unscoped_lookup_counterexample :
    (∀ c ∈ [sampleCommand 1 77 CommandStatus.Sent none (some 2)],
        ¬(c.device_id = some 1 ∧ c.status = CommandStatus.Sent)) ∧
    find_by_uuid [sampleCommand 1 77 CommandStatus.Sent none (some 2)] 77
      = Except.ok (sampleCommand 1 77 CommandStatus.Sent none (some 2)) := by
  exact ⟨by decide, rfl⟩

theorem filter_uuid_eq_singleton (store : List Command) (u : Nat)
    (hpw : store.Pairwise (fun c1 c2 => c1.uuid ≠ c2.uuid))
    (c : Command) (hc : c ∈ store) (hcu : c.uuid = u) :
    store.filter (fun x => decide (x.uuid = u)) = [c] := by
  induction store with
  | nil => cases hc
  | cons x xs ih =>
    have hx_ne : ∀ y ∈ xs, x.uuid ≠ y.uuid := (List.pairwise_cons.mp hpw).1
    have hpw' := (List.pairwise_cons.mp hpw).2
    rcases List.mem_cons.mp hc with hcx | hcs
    · subst hcx
      rw [List.filter_cons_of_pos (by simp [hcu])]
      have : xs.filter (fun x => decide (x.uuid = u)) = [] := by
        apply List.filter_eq_nil_iff.mpr
        intro y hy
        simp only [decide_eq_true_eq]
        intro hyu
        exact hx_ne y hy (hcu.trans hyu.symm)
      rw [this]
    · rw [List.filter_cons_of_neg
        (by simp only [decide_eq_true_eq]; exact fun hxu => hx_ne c hcs (hxu.trans hcu.symm))]
      exact ih hpw' hcs

/-- C6 (amended): `find_by_uuid` looks the uuid up across the whole command
table, scoped to no device and no status.  Under the table's uniqueness
constraint on `uuid` (pairwise distinct uuids): when some command — of any
device, in any status — carries the uuid, the lookup returns it; only when no
command at all carries the uuid does it fail (with `NoResultFound`, the error
`.one()` raises). -/
theorem C6_find_by_uuid_global (store : List Command) (u : Nat)
    (hpw : store.Pairwise (fun c1 c2 => c1.uuid ≠ c2.uuid)) :
    ((∃ c ∈ store, c.uuid = u) →
      ∃ c, find_by_uuid store u = Except.ok c ∧ c ∈ store ∧ c.uuid = u)
    ∧ ((∀ c ∈ store, c.uuid ≠ u) →
      find_by_uuid store u = Except.error QueryError.NoResultFound) := by
  constructor
  · rintro ⟨c, hc, hcu⟩
    refine ⟨c, ?_, hc, hcu⟩
    unfold find_by_uuid
    rw [filter_uuid_eq_singleton store u hpw c hc hcu]
  · intro h
    unfold find_by_uuid
    have : store.filter (fun x => decide (x.uuid = u)) = [] := by
      apply List.filter_eq_nil_iff.mpr
      intro y hy
      simpa using h y hy
    rw [this]

/-- C6 (amended, witness): the stored command of device 2 with uuid 77 is found
by a global lookup of uuid 77. -/
theorem C6_find_by_uuid_global_witness :
    ∃ c, find_by_uuid [sampleCommand 1 77 CommandStatus.Sent none (some 2)] 77
        = Except.ok c
      ∧ c ∈ [sampleCommand 1 77 CommandStatus.Sent none (some 2)] ∧ c.uuid = 77 :=
  (C6_find_by_uuid_global [sampleCommand 1 77 CommandStatus.Sent none (some 2)] 77
      (by simp)).1
    ⟨sampleCommand 1 77 CommandStatus.Sent none (some 2), by simp, by decide⟩

/-- C7: a confirmed push-delivery failure increments `failed_push_count` and
nothing else — every other device column and every stored command is unchanged;
a confirmed delivery success and a device contact clear `last_push_at` and
`last_apns_id` and reset `failed_push_count` to zero, again leaving every
stored command unchanged. -/
theorem C7_push_outcome_frame (s : EngineState) (now : Nat) :
    ((onPushDeliveryFailure s).commands = s.commands
      ∧ (onPushDeliveryFailure s).device.failed_push_count
          = s.device.failed_push_count + 1
      ∧ (onPushDeliveryFailure s).device.last_push_at = s.device.last_push_at
      ∧ (onPushDeliveryFailure s).device.last_apns_id = s.device.last_apns_id
      ∧ (onPushDeliveryFailure s).device.is_enrolled = s.device.is_enrolled
      ∧ (onPushDeliveryFailure s).device._token = s.device._token)
    ∧ ((onPushDeliverySuccess s).commands = s.commands
      ∧ (onPushDeliverySuccess s).device.last_push_at = none
      ∧ (onPushDeliverySuccess s).device.last_apns_id = none
      ∧ (onPushDeliverySuccess s).device.failed_push_count = 0)
    ∧ ((onDeviceContact s now).commands = s.commands
      ∧ (onDeviceContact s now).device.last_push_at = none
      ∧ (onDeviceContact s now).device.last_apns_id = none
      ∧ (onDeviceContact s now).device.failed_push_count = 0) := by
  refine ⟨⟨rfl, rfl, rfl, rfl, rfl, rfl⟩, ⟨rfl, rfl, rfl, rfl⟩, rfl, rfl, rfl, rfl⟩

/-- C8 (code behavior at the failing input): the `queued_at` default
`datetime.datetime.utcnow()` is called once, when the module is loaded, so a
command created later does not get its creation time.  With the module loaded
at instant 0, a command created at instant 10 gets `queued_at = 0 ≠ 10`, and a
second command created at instant 20 gets the very same `queued_at`. -/
theorem C8_queued_at_is_import_time :
    (newCommandRow 0 10 1 "DeviceInformation" 11 none none).queued_at = 0
    ∧ (newCommandRow 0 10 1 "DeviceInformation" 11 none none).queued_at ≠ 10
    ∧ (newCommandRow 0 20 2 "DeviceLock" 12 none none).queued_at
        = (newCommandRow 0 10 1 "DeviceInformation" 11 none none).queued_at := by
  exact ⟨rfl, by decide, rfl⟩

/-- C10: every newly created command row — in particular one built by
`Command.from_model`, which copies exactly `request_type`, `uuid` and
`parameters` from its input — has status `Queued` and ttl 5 by default. -/
theorem C10_creation_defaults (moduleLoadTime creationTime idv : Nat)
    (cmd : ProtocolCommand) (rt : String) (uuidv : Nat) (params : Option String)
    (dev : Option Nat) :
    ((from_model moduleLoadTime creationTime idv cmd).status = CommandStatus.Queued
      ∧ (from_model moduleLoadTime creationTime idv cmd).ttl = 5
      ∧ (from_model moduleLoadTime creationTime idv cmd).request_type
          = cmd.request_type
      ∧ (from_model moduleLoadTime creationTime idv cmd).uuid = cmd.uuid
      ∧ (from_model moduleLoadTime creationTime idv cmd).parameters
          = cmd.parameters)
    ∧ ((newCommandRow moduleLoadTime creationTime idv rt uuidv params dev).status
          = CommandStatus.Queued
      ∧ (newCommandRow moduleLoadTime creationTime idv rt uuidv params dev).ttl
          = 5) := by
  exact ⟨⟨rfl, rfl, rfl, rfl, rfl⟩, rfl, rfl⟩

theorem decode4_one (w x : Nat) : decode4 w x 64 64 = [w * 4 + x / 16] := by
  simp [decode4]

theorem decode4_two (w x y : Nat) (hy : y ≠ 64) :
    decode4 w x y 64 = [w * 4 + x / 16, (x % 16) * 16 + y / 4] := by
  simp [decode4, hy]

theorem decode4_full (w x y z : Nat) (hz : z ≠ 64) :
    decode4 w x y z = [w * 4 + x / 16, (x % 16) * 16 + y / 4, (y % 4) * 64 + z] := by
  simp [decode4, hz]

theorem charToSextet_sextetToChar :
    ∀ n, n ≤ 64 → charToSextet (sextetToChar n) = n := by
  decide

theorem b64encodeGroups_le (l : List Nat) (h : ∀ x ∈ l, x < 256) :
    ∀ y ∈ b64encodeGroups l, y ≤ 64 := by
  induction l using b64encodeGroups.induct with
  | case1 => simp [b64encodeGroups]
  | case2 a =>
    have ha := h a (by simp)
    simp only [b64encodeGroups, List.mem_cons, List.not_mem_nil, or_false]
    rintro y (rfl | rfl | rfl | rfl) <;> omega
  | case3 a b =>
    have ha := h a (by simp)
    have hb := h b (by simp)
    simp only [b64encodeGroups, List.mem_cons, List.not_mem_nil, or_false]
    rintro y (rfl | rfl | rfl | rfl) <;> omega
  | case4 a b c rest ih =>
    have ha := h a (by simp)
    have hb := h b (by simp)
    have hc := h c (by simp)
    have ih2 := ih (fun x hx => h x (by simp [hx]))
    simp only [b64encodeGroups, encode3, List.mem_append, List.mem_cons,
      List.not_mem_nil, or_false]
    rintro y ((rfl | rfl | rfl | rfl) | hy)
    · omega
    · omega
    · omega
    · omega
    · exact ih2 y hy

theorem b64decodeGroups_encodeGroups (l : List Nat) (h : ∀ x ∈ l, x < 256) :
    b64decodeGroups (b64encodeGroups l) = l := by
  induction l using b64encodeGroups.induct with
  | case1 => rfl
  | case2 a =>
    have ha := h a (by simp)
    show b64decodeGroups [a / 4, (a % 4) * 16, 64, 64] = [a]
    rw [show b64decodeGroups [a / 4, (a % 4) * 16, 64, 64]
        = decode4 (a / 4) ((a % 4) * 16) 64 64 ++ b64decodeGroups [] from rfl]
    rw [decode4_one]
    simp only [b64decodeGroups, List.append_nil, List.cons.injEq, and_true]
    omega
  | case3 a b =>
    have ha := h a (by simp)
    have hb := h b (by simp)
    show b64decodeGroups [a / 4, (a % 4) * 16 + b / 16, (b % 16) * 4, 64] = [a, b]
    rw [show b64decodeGroups [a / 4, (a % 4) * 16 + b / 16, (b % 16) * 4, 64]
        = decode4 (a / 4) ((a % 4) * 16 + b / 16) ((b % 16) * 4) 64
            ++ b64decodeGroups [] from rfl]
    rw [decode4_two _ _ _ (by omega)]
    simp only [b64decodeGroups, List.append_nil, List.cons.injEq, and_true]
    constructor
    · omega
    · omega
  | case4 a b c rest ih =>
    have ha := h a (by simp)
    have hb := h b (by simp)
    have hc := h c (by simp)
    have ih2 := ih (fun x hx => h x (by simp [hx]))
    show b64decodeGroups
        ((a / 4) :: ((a % 4) * 16 + b / 16) :: ((b % 16) * 4 + c / 64) :: (c % 64)
          :: b64encodeGroups rest)
      = a :: b :: c :: rest
    rw [show b64decodeGroups
          ((a / 4) :: ((a % 4) * 16 + b / 16) :: ((b % 16) * 4 + c / 64) :: (c % 64)
            :: b64encodeGroups rest)
        = decode4 (a / 4) ((a % 4) * 16 + b / 16) ((b % 16) * 4 + c / 64) (c % 64)
            ++ b64decodeGroups (b64encodeGroups rest) from rfl]
    rw [decode4_full _ _ _ _ (by omega), ih2]
    simp only [List.cons_append, List.nil_append, List.cons.injEq, and_true]
    exact ⟨by omega, by omega, by omega⟩

theorem map_sextet_roundtrip (xs : List Nat) (h : ∀ x ∈ xs, x ≤ 64) :
    xs.map (fun n => charToSextet (sextetToChar n)) = xs := by
  induction xs with
  | nil => rfl
  | cons x rest ih =>
    simp only [List.map_cons]
    rw [charToSextet_sextetToChar x (h x (by simp)),
      ih (fun y hy => h y (by simp [hy]))]

theorem b64decode_b64encode (l : List Nat) (h : ∀ x ∈ l, x < 256) :
    b64decode (b64encode l) = l := by
  unfold b64decode b64encode
  rw [List.map_map]
  rw [show (charToSextet ∘ sextetToChar)
      = fun n => charToSextet (sextetToChar n) from rfl]
  rw [map_sextet_roundtrip (b64encodeGroups l) (b64encodeGroups_le l h)]
  exact b64decodeGroups_encodeGroups l h

/-- C9: the `token` property round-trips through its base64 storage — setting
the token to a byte value `v` and reading it back returns `v`, and setting it
to `None` reads back as `None`. -/
theorem C9_token_roundtrip (d : Device) (v : List Nat) (h : ∀ x ∈ v, x < 256) :
    Device.token (Device.setToken d (some v)) = some v
    ∧ Device.token (Device.setToken d none) = none := by
  constructor
  · show some (b64decode (b64encode v)) = some v
    rw [b64decode_b64encode v h]
  · rfl

/-- C9 (witness): the bytes [77, 1, 255] round-trip through the stored base64
string. -/
theorem C9_token_roundtrip_witness :
    Device.token (Device.setToken (sampleDevice none) (some [77, 1, 255]))
      = some [77, 1, 255] :=
  (C9_token_roundtrip (sampleDevice none) [77, 1, 255] (by decide)).1

end Commandment
